import Mathlib

/-!
Shallow embedding of the PostgreSQL frontend protocol engine found in
`messages.go` of the go-pg client library.  Bytes are modelled as `Nat`
(each in `[0, 256)` where it matters), byte streams as `List Nat`, and the
message-loop readers either as functions over abstract message lists or as
byte-level parsers, matching the granularity of the source function.
-/

namespace GoPg

/-! ### Byte-stream primitives (FrameCodec read side, from `messages.go`) -/

/-- Big-endian 16-bit encoding of a natural number (low 16 bits). -/
def int16be (n : Nat) : List Nat := [n % 65536 / 256, n % 256]

/-- Big-endian 32-bit encoding of an integer, two's complement (low 32 bits),
mirroring `binary.BigEndian.PutUint32` applied to `uint32(v)`. -/
def int32be (v : Int) : List Nat :=
  let m : Nat := (v % 4294967296).toNat
  [m / 16777216 % 256, m / 65536 % 256, m / 256 % 256, m % 256]

/-- Decode two bytes as a big-endian unsigned 16-bit value. -/
def be16 (bs : List Nat) : Nat :=
  match bs with
  | [a, b] => a * 256 + b
  | _ => 0

/-- Reading exactly `n` bytes from a stream, as `pool.Conn.ReadN`: fails when
fewer than `n` bytes remain. -/
def readN (n : Nat) (s : List Nat) : Option (List Nat × List Nat) :=
  if n ≤ s.length then some (s.take n, s.drop n) else none

/-- Big-endian signed 16-bit read, as `readInt16` in `messages.go`. -/
def readInt16 (s : List Nat) : Option (Int × List Nat) :=
  match readN 2 s with
  | none => none
  | some (bs, rest) =>
    let u := be16 bs
    some (if u < 32768 then (u : Int) else (u : Int) - 65536, rest)

/-- Big-endian signed 32-bit read, as `readInt32` in `messages.go`. -/
def readInt32 (s : List Nat) : Option (Int × List Nat) :=
  match readN 4 s with
  | none => none
  | some (bs, rest) =>
    let u := match bs with
      | [a, b, c, d] => ((a * 256 + b) * 256 + c) * 256 + d
      | _ => 0
    some (if u < 2147483648 then (u : Int) else (u : Int) - 4294967296, rest)

/-- Reading a NUL-terminated byte string (the terminator is consumed and
dropped), as `readBytes` / `readString` in `messages.go`. -/
def readCString : List Nat → Option (List Nat × List Nat)
  | [] => none
  | b :: s =>
    if b = 0 then some ([], s)
    else match readCString s with
      | none => none
      | some (bs, rest) => some (b :: bs, rest)

/-! ### Abstract parsed messages

The response readers of `messages.go` dispatch on the tag byte returned by
`readMessageType` and consume each message's payload whole.  At this level a
stream is a list of already-framed messages; `errorResponse` carries the
diagnostic produced by `readError`, abstracted to a `Nat` identifier, and
payload-carrying messages carry their payload bytes. -/

inductive PgMsg where
  | commandComplete (tag : List Nat)
  | readyForQuery
  | rowDescription (cols : List (List Nat))
  | dataRow
  | errorResponse (e : Nat)
  | noticeResponse
  | parameterStatus
  | bindComplete
  | parseComplete
  | parameterDescription
  | noData
  | copyData (b : List Nat)
  | copyDone
  | unknown (tag : Nat)
  deriving DecidableEq, Repr

/-- The `types.Result` value built by `types.NewResult(b, rows)`: the
command-tag payload plus the row count captured at creation time. -/
structure QueryResult where
  cmd : List Nat
  rows : Nat
  deriving DecidableEq, Repr

/-- Outcome of a coalescing response reader: short read, unexpected tag, or
normal return at `ReadyForQuery` carrying the result, the coalesced error and
the unconsumed remainder of the stream. -/
inductive ReadOutcome where
  | ioErr
  | unexpected (tag : PgMsg)
  | done (res : Option QueryResult) (err : Option Nat) (rest : List PgMsg)
  deriving DecidableEq, Repr

/-- The `setErr` closure shared by `readSimpleQuery` and `readExtQuery`:
record an error only when none is recorded yet. -/
def setErr (retErr : Option Nat) (e : Nat) : Option Nat :=
  match retErr with
  | none => some e
  | some x => some x

/-- Loop body of `readSimpleQuery` (messages.go:544), carrying the
accumulators `res`, `rows` and `retErr` of the Go function. -/
def readSimpleQueryLoop (res : Option QueryResult) (rows : Nat)
    (retErr : Option Nat) : List PgMsg → ReadOutcome
  | [] => .ioErr
  | m :: ms =>
    match m with
    | .commandComplete b => readSimpleQueryLoop (some ⟨b, rows⟩) rows retErr ms
    | .readyForQuery => .done res retErr ms
    | .rowDescription _ => readSimpleQueryLoop res rows retErr ms
    | .dataRow => readSimpleQueryLoop res (rows + 1) retErr ms
    | .errorResponse e => readSimpleQueryLoop res rows (setErr retErr e) ms
    | .noticeResponse => readSimpleQueryLoop res rows retErr ms
    | .parameterStatus => readSimpleQueryLoop res rows retErr ms
    | other => .unexpected other

/-- The simple-query reader `readSimpleQuery` of `messages.go`. -/
def readSimpleQuery (ms : List PgMsg) : ReadOutcome :=
  readSimpleQueryLoop none 0 none ms

/-- Loop body of `readExtQuery` (messages.go:602). -/
def readExtQueryLoop (res : Option QueryResult) (rows : Nat)
    (retErr : Option Nat) : List PgMsg → ReadOutcome
  | [] => .ioErr
  | m :: ms =>
    match m with
    | .bindComplete => readExtQueryLoop res rows retErr ms
    | .dataRow => readExtQueryLoop res (rows + 1) retErr ms
    | .commandComplete b => readExtQueryLoop (some ⟨b, rows⟩) rows retErr ms
    | .readyForQuery => .done res retErr ms
    | .errorResponse e => readExtQueryLoop res rows (setErr retErr e) ms
    | .noticeResponse => readExtQueryLoop res rows retErr ms
    | .parameterStatus => readExtQueryLoop res rows retErr ms
    | other => .unexpected other

/-- The extended-query reader `readExtQuery` of `messages.go`. -/
def readExtQuery (ms : List PgMsg) : ReadOutcome :=
  readExtQueryLoop none 0 none ms

/-- Loop body of `readReadyForQuery` (messages.go:1013).  Note that on
`errorResponse` the Go code assigns `retErr = e` unconditionally, without the
`setErr` guard used by the other readers. -/
def readReadyForQueryLoop (res : Option QueryResult) (retErr : Option Nat) :
    List PgMsg → ReadOutcome
  | [] => .ioErr
  | m :: ms =>
    match m with
    | .commandComplete b => readReadyForQueryLoop (some ⟨b, 0⟩) retErr ms
    | .readyForQuery => .done res retErr ms
    | .errorResponse e => readReadyForQueryLoop res (some e) ms
    | .noticeResponse => readReadyForQueryLoop res retErr ms
    | .parameterStatus => readReadyForQueryLoop res retErr ms
    | other => .unexpected other

/-- The ready-for-query reader `readReadyForQuery` of `messages.go`, used
after COPY. -/
def readReadyForQuery (ms : List PgMsg) : ReadOutcome :=
  readReadyForQueryLoop none none ms

/-- Outcome of `readParseDescribeSync`: on `errorResponse` the Go code
returns `nil, e` at once, so the remainder after the error message is left
unconsumed in the `serverErr` case. -/
inductive PrepareOutcome where
  | ioErr
  | unexpected (tag : PgMsg)
  | done (cols : List (List Nat)) (rest : List PgMsg)
  | serverErr (e : Nat) (rest : List PgMsg)
  deriving DecidableEq, Repr

/-- Loop body of `readParseDescribeSync` (messages.go:389), carrying the
`columns` accumulator (initially nil, modelled as `[]`). -/
def readParseDescribeSyncLoop (columns : List (List Nat)) :
    List PgMsg → PrepareOutcome
  | [] => .ioErr
  | m :: ms =>
    match m with
    | .parseComplete => readParseDescribeSyncLoop columns ms
    | .rowDescription cols => readParseDescribeSyncLoop cols ms
    | .parameterDescription => readParseDescribeSyncLoop columns ms
    | .noData => readParseDescribeSyncLoop columns ms
    | .readyForQuery => .done columns ms
    | .errorResponse e => .serverErr e ms
    | .noticeResponse => readParseDescribeSyncLoop columns ms
    | .parameterStatus => readParseDescribeSyncLoop columns ms
    | other => .unexpected other

/-- The prepare reader `readParseDescribeSync` of `messages.go`. -/
def readParseDescribeSync (ms : List PgMsg) : PrepareOutcome :=
  readParseDescribeSyncLoop [] ms

/-- Outcome of `readCopyData`: `out` is everything written to the output
sink; on `errorResponse` the Go code returns `nil, e` at once, leaving the
remainder unconsumed. -/
inductive CopyOutcome where
  | ioErr
  | unexpected (tag : PgMsg)
  | done (res : Option QueryResult) (out : List Nat) (rest : List PgMsg)
  | serverErr (e : Nat) (out : List Nat) (rest : List PgMsg)
  deriving DecidableEq, Repr

/-- Loop body of `readCopyData` (messages.go:948), accumulating the bytes
written to `w` and the `res` value. -/
def readCopyDataLoop (res : Option QueryResult) (out : List Nat) :
    List PgMsg → CopyOutcome
  | [] => .ioErr
  | m :: ms =>
    match m with
    | .copyData b => readCopyDataLoop res (out ++ b) ms
    | .copyDone => readCopyDataLoop res out ms
    | .commandComplete b => readCopyDataLoop (some ⟨b, 0⟩) out ms
    | .readyForQuery => .done res out ms
    | .errorResponse e => .serverErr e out ms
    | .noticeResponse => readCopyDataLoop res out ms
    | .parameterStatus => readCopyDataLoop res out ms
    | other => .unexpected other

/-- The COPY-OUT drain `readCopyData` of `messages.go`. -/
def readCopyData (ms : List PgMsg) : CopyOutcome :=
  readCopyDataLoop none [] ms

/-! ### SASL mechanism selection (messages.go:209-228)

The Go loop reads NUL-terminated mechanism names until an empty string,
keeping `saslMech` as the last accepted mechanism; an unrecognised name
makes the loop return an error at once.  The input below is the list of
names read off the wire; reaching the end of the list plays the role of the
empty-string terminator. -/

/-- Mechanism-selection loop of the `authenticationSASL` case; `acc` is the
`saslMech` variable (`none` is the zero `sasl.Mechanism`). -/
def selectSaslMechLoop (acc : Option String) :
    List String → Except String (Option String)
  | [] => .ok acc
  | s :: rest =>
    if s = "" then .ok acc
    else if s = "SCRAM-SHA-256" then selectSaslMechLoop (some "SCRAM-SHA-256") rest
    else if s = "SCRAM-SHA-256-PLUS" then selectSaslMechLoop acc rest
    else .error s

/-- Mechanism selection entered with no mechanism chosen. -/
def selectSaslMech (names : List String) : Except String (Option String) :=
  selectSaslMechLoop none names

/-! ### Write-side builders

`pool.WriteBuffer` itself lives outside `messages.go`.  Modelled from the
spec: `start_message(tag_byte_or_0)` writes the tag byte (none for the three
untagged pre-startup requests), `finish_message()` back-patches the 32-bit
big-endian length field to payload length + 4, `WriteString` writes the
bytes of the string followed by a NUL terminator, `WriteInt16`/`WriteInt32`
write big-endian fixed-width integers, and `start_param`/`finish_param`/
`finish_null_param` wrap a parameter value with its 32-bit length (−1 for
NULL). -/

/-- A complete framed message: optional tag byte, back-patched length
(payload + 4), then the payload. -/
def frameMsg (tag : Option Nat) (payload : List Nat) : List Nat :=
  (match tag with | none => [] | some t => [t]) ++
    int32be (payload.length + 4) ++ payload

/-- `WriteString`: bytes of the string followed by a NUL. -/
def writeCString (s : List Nat) : List Nat := s ++ [0]

/-- Go's `int16(n)` conversion of a non-negative integer: two's-complement
truncation to 16 bits. -/
def int16ofNat (n : Nat) : Int :=
  if n % 65536 < 32768 then (n % 65536 : Nat) else ((n % 65536 : Nat) : Int) - 65536

/-- `WriteInt16`: the two big-endian bytes of a signed 16-bit value. -/
def writeInt16 (v : Int) : List Nat :=
  let m : Nat := (v % 65536).toNat
  [m / 256, m % 256]

/-- One Bind parameter as written by `StartParam`/`FinishParam` (length
prefix then bytes) or `FinishNullParam` (−1, no bytes); `none` is the nil
slice returned by `types.Append` for SQL NULL. -/
def encodeParam : Option (List Nat) → List Nat
  | none => int32be (-1)
  | some b => int32be b.length ++ b

/-- Payload of the Bind message written by `writeBindExecuteMsg`
(messages.go:441): empty portal, statement name, zero format codes, the
parameter count as `int16(len(params))`, the parameters, zero result-format
codes. -/
def bindPayload (name : List Nat) (params : List (Option (List Nat))) : List Nat :=
  writeCString [] ++ writeCString name ++ writeInt16 0 ++
    writeInt16 (int16ofNat params.length) ++
    (params.map encodeParam).flatten ++ writeInt16 0

/-- The full byte output of `writeBindExecuteMsg`: Bind, Execute (empty
portal, max rows 0) and Sync messages. -/
def writeBindExecuteMsg (name : List Nat) (params : List (Option (List Nat))) :
    List Nat :=
  frameMsg (some 66) (bindPayload name params) ++
    frameMsg (some 69) (writeCString [] ++ int32be 0) ++
    frameMsg (some 83) []

/-- The two parameter-count bytes inside the Bind message produced by
`writeBindExecuteMsg`: they sit right after the tag byte, the 4-byte length,
the empty portal cstring, the NUL-terminated statement name and the 2-byte
zero format-code count, i.e. at offset `9 + name.length`. -/
def bindParamCountBytes (name : List Nat) (params : List (Option (List Nat))) : List Nat :=
  ((writeBindExecuteMsg name params).drop (9 + name.length)).take 2

/-- The 8-byte SSLRequest written by `writeSSLMsg` (messages.go:317):
untagged frame whose payload is the big-endian opcode 80877103. -/
def writeSSLMsgBytes : List Nat := frameMsg none (int32be 80877103)

/-- Outcome of the SSL negotiation. -/
inductive SslOutcome where
  | ioErr
  | sslOk
  | sslNotSupported
  deriving DecidableEq, Repr

/-- `enableSSL` (messages.go:119): write the SSLRequest, flush, read exactly
one byte; `S` (83) succeeds, anything else is `errSSLNotSupported`.  Returns
the bytes sent, the outcome, and the unconsumed remainder of the input
stream. -/
def enableSSL (input : List Nat) : List Nat × SslOutcome × List Nat :=
  (writeSSLMsgBytes,
    match input with
    | [] => (.ioErr, [])
    | c :: rest => if c = 83 then (.sslOk, rest) else (.sslNotSupported, rest))

/-! ### MD5 (RFC 1321), as used through `crypto/md5` + `hex.EncodeToString`
by `md5s` (messages.go:300) -/

/-- The 64 sine-derived round constants of MD5. -/
def md5K : List Nat :=
  [0xd76aa478, 0xe8c7b756, 0x242070db, 0xc1bdceee,
   0xf57c0faf, 0x4787c62a, 0xa8304613, 0xfd469501,
   0x698098d8, 0x8b44f7af, 0xffff5bb1, 0x895cd7be,
   0x6b901122, 0xfd987193, 0xa679438e, 0x49b40821,
   0xf61e2562, 0xc040b340, 0x265e5a51, 0xe9b6c7aa,
   0xd62f105d, 0x02441453, 0xd8a1e681, 0xe7d3fbc8,
   0x21e1cde6, 0xc33707d6, 0xf4d50d87, 0x455a14ed,
   0xa9e3e905, 0xfcefa3f8, 0x676f02d9, 0x8d2a4c8a,
   0xfffa3942, 0x8771f681, 0x6d9d6122, 0xfde5380c,
   0xa4beea44, 0x4bdecfa9, 0xf6bb4b60, 0xbebfbc70,
   0x289b7ec6, 0xeaa127fa, 0xd4ef3085, 0x04881d05,
   0xd9d4d039, 0xe6db99e5, 0x1fa27cf8, 0xc4ac5665,
   0xf4292244, 0x432aff97, 0xab9423a7, 0xfc93a039,
   0x655b59c3, 0x8f0ccc92, 0xffeff47d, 0x85845dd1,
   0x6fa87e4f, 0xfe2ce6e0, 0xa3014314, 0x4e0811a1,
   0xf7537e82, 0xbd3af235, 0x2ad7d2bb, 0xeb86d391]

/-- The per-round left-rotation amounts of MD5. -/
def md5S : List Nat :=
  [7, 12, 17, 22, 7, 12, 17, 22, 7, 12, 17, 22, 7, 12, 17, 22,
   5, 9, 14, 20, 5, 9, 14, 20, 5, 9, 14, 20, 5, 9, 14, 20,
   4, 11, 16, 23, 4, 11, 16, 23, 4, 11, 16, 23, 4, 11, 16, 23,
   6, 10, 15, 21, 6, 10, 15, 21, 6, 10, 15, 21, 6, 10, 15, 21]

/-- Left rotation of a 32-bit word. -/
def rotl32 (x n : Nat) : Nat :=
  (x * 2 ^ n) % 4294967296 + x % 4294967296 / 2 ^ (32 - n) % 2 ^ n

/-- One of the 64 MD5 rounds; `M` gives the 16 little-endian message words
of the current chunk. -/
def md5Step (M : Nat → Nat) (st : Nat × Nat × Nat × Nat) (i : Nat) :
    Nat × Nat × Nat × Nat :=
  let a := st.1
  let b := st.2.1
  let c := st.2.2.1
  let d := st.2.2.2
  let mask := 4294967295
  let f :=
    if i < 16 then (b &&& c) ||| ((mask ^^^ b) &&& d)
    else if i < 32 then (d &&& b) ||| ((mask ^^^ d) &&& c)
    else if i < 48 then b ^^^ c ^^^ d
    else c ^^^ (b ||| (mask ^^^ d))
  let g :=
    if i < 16 then i
    else if i < 32 then (5 * i + 1) % 16
    else if i < 48 then (3 * i + 5) % 16
    else 7 * i % 16
  let tmp := (f + a + md5K.getD i 0 + M g) % 4294967296
  (d, (b + rotl32 tmp (md5S.getD i 0)) % 4294967296, b, c)

/-- 64-bit little-endian length encoding used by MD5 padding. -/
def le64 (n : Nat) : List Nat := (List.range 8).map fun i => n / 2 ^ (8 * i) % 256

/-- 32-bit little-endian word serialisation of the final state. -/
def le32 (n : Nat) : List Nat := [n % 256, n / 256 % 256, n / 65536 % 256, n / 16777216 % 256]

/-- MD5 padding: a 0x80 byte, zeros up to 56 mod 64, then the bit length. -/
def md5Pad (m : List Nat) : List Nat :=
  m ++ [128] ++ List.replicate ((56 + 64 - (m.length + 1) % 64) % 64) 0 ++
    le64 (8 * m.length)

/-- Split a byte list into 64-byte chunks; the fuel argument (any bound on
the number of chunks, here the list length) keeps the recursion
structural. -/
def chunks64Aux : Nat → List Nat → List (List Nat)
  | 0, _ => []
  | _, [] => []
  | fuel + 1, a :: l => ((a :: l).take 64) :: chunks64Aux fuel ((a :: l).drop 64)

/-- Split a byte list into 64-byte chunks. -/
def chunks64 (l : List Nat) : List (List Nat) := chunks64Aux l.length l

/-- Compress one 64-byte chunk into the running state. -/
def md5Chunk (h : Nat × Nat × Nat × Nat) (chunk : List Nat) :
    Nat × Nat × Nat × Nat :=
  let M := fun g => chunk.getD (4 * g) 0 + 256 * chunk.getD (4 * g + 1) 0 +
    65536 * chunk.getD (4 * g + 2) 0 + 16777216 * chunk.getD (4 * g + 3) 0
  let r := (List.range 64).foldl (md5Step M) h
  ((h.1 + r.1) % 4294967296, (h.2.1 + r.2.1) % 4294967296,
   (h.2.2.1 + r.2.2.1) % 4294967296, (h.2.2.2 + r.2.2.2) % 4294967296)

/-- The 16-byte MD5 digest of a byte string. -/
def md5 (msg : List Nat) : List Nat :=
  let r := (chunks64 (md5Pad msg)).foldl md5Chunk
    (0x67452301, 0xefcdab89, 0x98badcfe, 0x10325476)
  le32 r.1 ++ le32 r.2.1 ++ le32 r.2.2.1 ++ le32 r.2.2.2

/-- ASCII code of a lowercase hexadecimal digit. -/
def hexDigit (n : Nat) : Nat := if n < 10 then 48 + n else 87 + n

/-- Lowercase hex encoding of a byte string, as `hex.EncodeToString`, with
the result as ASCII bytes. -/
def hexBytes (bs : List Nat) : List Nat :=
  (bs.map fun b => [hexDigit (b / 16 % 16), hexDigit (b % 16)]).flatten

/-- The helper `md5s` of messages.go:300: lowercase hex of the MD5 digest,
operating on byte strings (Go strings are byte strings). -/
def md5s (s : List Nat) : List Nat := hexBytes (md5 s)

/-- ASCII bytes of a Lean string literal (all literals used here are
ASCII). -/
def ascii (s : String) : List Nat := s.data.map Char.toNat

/-- The secret computed in the `authenticationMD5Password` case
(messages.go:180): `"md5" + md5s(md5s(password+user) + string(salt))`. -/
def md5AuthSecret (user password salt : List Nat) : List Nat :=
  ascii "md5" ++ md5s (md5s (password ++ user) ++ salt)

/-- Payload of the PasswordMessage written by `writePasswordMsg`
(messages.go:323): the NUL-terminated secret. -/
def md5PasswordPayload (user password salt : List Nat) : List Nat :=
  writeCString (md5AuthSecret user password salt)

/-! ### Byte-level row parsers (messages.go:660 and messages.go:689) -/

/-- Per-field loop of `readRowDescription`: a NUL-terminated column name
followed by 18 bytes of discarded metadata, repeated `colNum` times. -/
def readRowDescriptionFields : Nat → List Nat → Option (List (List Nat) × List Nat)
  | 0, s => some ([], s)
  | k + 1, s =>
    match readCString s with
    | none => none
    | some (name, s1) =>
      match readN 18 s1 with
      | none => none
      | some (_, s2) =>
        match readRowDescriptionFields k s2 with
        | none => none
        | some (names, rest) => some (name :: names, rest)

/-- `readRowDescription` (messages.go:660): the i16 field count, then the
fields; only the column names are retained. -/
def readRowDescription (s : List Nat) : Option (List (List Nat) × List Nat) :=
  match readInt16 s with
  | none => none
  | some (colNum, s1) => readRowDescriptionFields colNum.toNat s1

/-- Encoding of a RowDescription body: i16 field count, then per field a
NUL-terminated name and its 18 metadata bytes. -/
def encodeRowDescription (fields : List (List Nat × List Nat)) : List Nat :=
  int16be fields.length ++ (fields.map fun f => writeCString f.1 ++ f.2).flatten

/-- Outcome of `readDataRow`: short read, the out-of-bounds access on the
`columns` slice (a Go panic), or normal completion with the coalesced first
scan error and the unconsumed remainder. -/
inductive RowOutcome where
  | ioErr
  | panicked
  | done (firstErr : Option Nat) (rest : List Nat)
  deriving DecidableEq, Repr

/-- Per-column loop of `readDataRow` (messages.go:701): i32 length, `-1`
meaning NULL with no payload bytes, otherwise exactly `length` payload
bytes; the `(index, column-name, bytes-or-null)` triple goes to the scanner
and scan errors are coalesced by `setErr`.  `columns[colIdx]` is read with
no bounds check, so a missing entry is the panic branch. -/
def readDataRowLoop (scan : Nat → List Nat → Option (List Nat) → Option Nat)
    (columns : List (List Nat)) :
    Nat → Nat → Option Nat → List Nat → RowOutcome
  | 0, _, err, s => .done err s
  | k + 1, idx, err, s =>
    match readInt32 s with
    | none => .ioErr
    | some (l, s1) =>
      let payload : Option (Option (List Nat) × List Nat) :=
        if l = -1 then some (none, s1)
        else match readN l.toNat s1 with
          | none => none
          | some (b, s2) => some (some b, s2)
      match payload with
      | none => .ioErr
      | some (b, s2) =>
        match columns[idx]? with
        | none => .panicked
        | some colName =>
          readDataRowLoop scan columns k (idx + 1)
            (match scan idx colName b with
             | none => err
             | some e => setErr err e) s2

/-- `readDataRow` (messages.go:689): i16 field count, then the per-column
loop starting at column 0 with no recorded error. -/
def readDataRow (scan : Nat → List Nat → Option (List Nat) → Option Nat)
    (columns : List (List Nat)) (s : List Nat) : RowOutcome :=
  match readInt16 s with
  | none => .ioErr
  | some (colNum, s1) => readDataRowLoop scan columns colNum.toNat 0 none s1

/-- One DataRow field on the wire: i32 −1 for NULL, else the i32 length
followed by the payload. -/
def encodeDataRowField : Option (List Nat) → List Nat
  | none => int32be (-1)
  | some b => int32be b.length ++ b

/-- Encoding of a DataRow body: i16 field count then the fields. -/
def encodeDataRow (fields : List (Option (List Nat))) : List Nat :=
  int16be fields.length ++ (fields.map encodeDataRowField).flatten

/-- The first scan error over a row, spec-side: scan each field in order
with its index and column name and keep the first error. -/
def firstScanError (scan : Nat → List Nat → Option (List Nat) → Option Nat)
    (columns : List (List Nat)) (fields : List (Option (List Nat))) : Option Nat :=
  (List.enumFrom 0 fields).findSome? fun p => scan p.1 (columns.getD p.1 []) p.2

/-! ### Helpers describing what a reader loop accumulates over a message
segment -/

/-- Messages that `readSimpleQuery` handles without returning. -/
def isSimpleCont : PgMsg → Bool
  | .commandComplete _ => true
  | .rowDescription _ => true
  | .dataRow => true
  | .errorResponse _ => true
  | .noticeResponse => true
  | .parameterStatus => true
  | _ => false

/-- Messages that `readExtQuery` handles without returning. -/
def isExtCont : PgMsg → Bool
  | .bindComplete => true
  | .dataRow => true
  | .commandComplete _ => true
  | .errorResponse _ => true
  | .noticeResponse => true
  | .parameterStatus => true
  | _ => false

/-- Messages that `readReadyForQuery` handles without returning. -/
def isReadyCont : PgMsg → Bool
  | .commandComplete _ => true
  | .errorResponse _ => true
  | .noticeResponse => true
  | .parameterStatus => true
  | _ => false

/-- Messages that `readParseDescribeSync` handles without returning. -/
def isPrepareCont : PgMsg → Bool
  | .parseComplete => true
  | .rowDescription _ => true
  | .parameterDescription => true
  | .noData => true
  | .noticeResponse => true
  | .parameterStatus => true
  | _ => false

/-- Messages that `readCopyData` handles without returning. -/
def isCopyCont : PgMsg → Bool
  | .copyData _ => true
  | .copyDone => true
  | .commandComplete _ => true
  | .noticeResponse => true
  | .parameterStatus => true
  | _ => false

/-- Does the message carry a CommandComplete tag? -/
def isCC : PgMsg → Bool
  | .commandComplete _ => true
  | _ => false

/-- Does the message carry a DataRow? -/
def isDataRow : PgMsg → Bool
  | .dataRow => true
  | _ => false

/-- Diagnostics of the ErrorResponse messages of a segment, in order. -/
def errsOf (ms : List PgMsg) : List Nat :=
  ms.filterMap fun m => match m with | .errorResponse e => some e | _ => none

/-- Number of DataRow messages in a segment. -/
def dataRowCount (ms : List PgMsg) : Nat := ms.countP fun m => isDataRow m

/-- First-error coalescing over a segment: an already-recorded error wins,
otherwise the segment's first error. -/
def errFold (err : Option Nat) (errs : List Nat) : Option Nat :=
  match err with
  | some x => some x
  | none => errs.head?

/-- The `res`/`rows` accumulation shared by the simple- and extended-query
loops: CommandComplete snapshots the current row count, DataRow increments
it, everything else leaves both alone. -/
def qresFold (res : Option QueryResult) (rows : Nat) : List PgMsg → Option QueryResult
  | [] => res
  | .commandComplete b :: ms => qresFold (some ⟨b, rows⟩) rows ms
  | .dataRow :: ms => qresFold res (rows + 1) ms
  | _ :: ms => qresFold res rows ms

/-- The `res` accumulation of `readReadyForQuery`: CommandComplete builds a
result with row count 0. -/
def readyResFold (res : Option QueryResult) : List PgMsg → Option QueryResult
  | [] => res
  | .commandComplete b :: ms => readyResFold (some ⟨b, 0⟩) ms
  | _ :: ms => readyResFold res ms

/-- Bytes written to the COPY-OUT sink over a segment. -/
def copyOutOf (ms : List PgMsg) : List Nat :=
  (ms.filterMap fun m => match m with | .copyData b => some b | _ => none).flatten

/-- Last-error-wins coalescing, matching the unguarded `retErr = e`
assignment of `readReadyForQuery`. -/
def overwriteFold (err : Option Nat) (errs : List Nat) : Option Nat :=
  errs.foldl (fun _ e => some e) err

/-- First-wins combination of an already-recorded error with a later one. -/
def orFirst (a b : Option Nat) : Option Nat :=
  match a with
  | some x => some x
  | none => b

/-! ### Lemmas about the coalescing folds -/

theorem errFold_nil (err : Option Nat) : errFold err [] = err := by
  cases err <;> rfl

theorem errFold_setErr (err : Option Nat) (e : Nat) (l : List Nat) :
    errFold (setErr err e) l = errFold err (e :: l) := by
  cases err <;> rfl

theorem errFold_append (err : Option Nat) (l1 l2 : List Nat) :
    errFold (errFold err l1) l2 = errFold err (l1 ++ l2) := by
  cases err with
  | some x => rfl
  | none => cases l1 <;> rfl

theorem overwriteFold_nil (err : Option Nat) : overwriteFold err [] = err := rfl

theorem overwriteFold_cons (err : Option Nat) (e : Nat) (l : List Nat) :
    overwriteFold err (e :: l) = overwriteFold (some e) l := rfl

theorem overwriteFold_concat (err : Option Nat) (l : List Nat) (e : Nat) :
    overwriteFold err (l ++ [e]) = some e := by
  simp [overwriteFold]

/-! ### Segment lemmas for the message-loop readers -/

theorem readSimpleQueryLoop_append (seg : List PgMsg) :
    ∀ (res : Option QueryResult) (rows : Nat) (err : Option Nat) (tail : List PgMsg),
    (∀ m ∈ seg, isSimpleCont m = true) →
    readSimpleQueryLoop res rows err (seg ++ tail) =
      readSimpleQueryLoop (qresFold res rows seg) (rows + dataRowCount seg)
        (errFold err (errsOf seg)) tail := by
  induction seg with
  | nil =>
    intro res rows err tail _
    simp [qresFold, dataRowCount, errsOf, errFold_nil]
  | cons m seg ih =>
    intro res rows err tail h
    have hm : isSimpleCont m = true := h m (List.mem_cons_self m seg)
    have hrest : ∀ x ∈ seg, isSimpleCont x = true :=
      fun x hx => h x (List.mem_cons_of_mem m hx)
    cases m with
    | commandComplete b =>
      simp only [List.cons_append, readSimpleQueryLoop, List.append_eq]
      rw [ih _ _ _ _ hrest]
      simp [qresFold, dataRowCount, errsOf, isDataRow, List.countP_cons,
        List.filterMap_cons]
    | rowDescription cols =>
      simp only [List.cons_append, readSimpleQueryLoop, List.append_eq]
      rw [ih _ _ _ _ hrest]
      simp [qresFold, dataRowCount, errsOf, isDataRow, List.countP_cons,
        List.filterMap_cons]
    | dataRow =>
      simp only [List.cons_append, readSimpleQueryLoop, List.append_eq]
      rw [ih _ _ _ _ hrest]
      have h1 : rows + dataRowCount (PgMsg.dataRow :: seg) = rows + 1 + dataRowCount seg := by
        simp [dataRowCount, List.countP_cons, isDataRow]
        omega
      have h2 : errsOf (PgMsg.dataRow :: seg) = errsOf seg := by
        simp [errsOf, List.filterMap_cons]
      rw [h1, h2]
      rfl
    | errorResponse e =>
      simp only [List.cons_append, readSimpleQueryLoop, List.append_eq]
      rw [ih _ _ _ _ hrest, errFold_setErr]
      simp [qresFold, dataRowCount, errsOf, isDataRow, List.countP_cons,
        List.filterMap_cons]
    | noticeResponse =>
      simp only [List.cons_append, readSimpleQueryLoop, List.append_eq]
      rw [ih _ _ _ _ hrest]
      simp [qresFold, dataRowCount, errsOf, isDataRow, List.countP_cons,
        List.filterMap_cons]
    | parameterStatus =>
      simp only [List.cons_append, readSimpleQueryLoop, List.append_eq]
      rw [ih _ _ _ _ hrest]
      simp [qresFold, dataRowCount, errsOf, isDataRow, List.countP_cons,
        List.filterMap_cons]
    | readyForQuery => simp [isSimpleCont] at hm
    | bindComplete => simp [isSimpleCont] at hm
    | parseComplete => simp [isSimpleCont] at hm
    | parameterDescription => simp [isSimpleCont] at hm
    | noData => simp [isSimpleCont] at hm
    | copyData b => simp [isSimpleCont] at hm
    | copyDone => simp [isSimpleCont] at hm
    | unknown t => simp [isSimpleCont] at hm

theorem readExtQueryLoop_append (seg : List PgMsg) :
    ∀ (res : Option QueryResult) (rows : Nat) (err : Option Nat) (tail : List PgMsg),
    (∀ m ∈ seg, isExtCont m = true) →
    readExtQueryLoop res rows err (seg ++ tail) =
      readExtQueryLoop (qresFold res rows seg) (rows + dataRowCount seg)
        (errFold err (errsOf seg)) tail := by
  induction seg with
  | nil =>
    intro res rows err tail _
    simp [qresFold, dataRowCount, errsOf, errFold_nil]
  | cons m seg ih =>
    intro res rows err tail h
    have hm : isExtCont m = true := h m (List.mem_cons_self m seg)
    have hrest : ∀ x ∈ seg, isExtCont x = true :=
      fun x hx => h x (List.mem_cons_of_mem m hx)
    cases m with
    | commandComplete b =>
      simp only [List.cons_append, readExtQueryLoop, List.append_eq]
      rw [ih _ _ _ _ hrest]
      simp [qresFold, dataRowCount, errsOf, isDataRow, List.countP_cons,
        List.filterMap_cons]
    | bindComplete =>
      simp only [List.cons_append, readExtQueryLoop, List.append_eq]
      rw [ih _ _ _ _ hrest]
      simp [qresFold, dataRowCount, errsOf, isDataRow, List.countP_cons,
        List.filterMap_cons]
    | dataRow =>
      simp only [List.cons_append, readExtQueryLoop, List.append_eq]
      rw [ih _ _ _ _ hrest]
      have h1 : rows + dataRowCount (PgMsg.dataRow :: seg) = rows + 1 + dataRowCount seg := by
        simp [dataRowCount, List.countP_cons, isDataRow]
        omega
      have h2 : errsOf (PgMsg.dataRow :: seg) = errsOf seg := by
        simp [errsOf, List.filterMap_cons]
      rw [h1, h2]
      rfl
    | errorResponse e =>
      simp only [List.cons_append, readExtQueryLoop, List.append_eq]
      rw [ih _ _ _ _ hrest, errFold_setErr]
      simp [qresFold, dataRowCount, errsOf, isDataRow, List.countP_cons,
        List.filterMap_cons]
    | noticeResponse =>
      simp only [List.cons_append, readExtQueryLoop, List.append_eq]
      rw [ih _ _ _ _ hrest]
      simp [qresFold, dataRowCount, errsOf, isDataRow, List.countP_cons,
        List.filterMap_cons]
    | parameterStatus =>
      simp only [List.cons_append, readExtQueryLoop, List.append_eq]
      rw [ih _ _ _ _ hrest]
      simp [qresFold, dataRowCount, errsOf, isDataRow, List.countP_cons,
        List.filterMap_cons]
    | readyForQuery => simp [isExtCont] at hm
    | rowDescription cols => simp [isExtCont] at hm
    | parseComplete => simp [isExtCont] at hm
    | parameterDescription => simp [isExtCont] at hm
    | noData => simp [isExtCont] at hm
    | copyData b => simp [isExtCont] at hm
    | copyDone => simp [isExtCont] at hm
    | unknown t => simp [isExtCont] at hm

theorem readReadyForQueryLoop_append (seg : List PgMsg) :
    ∀ (res : Option QueryResult) (err : Option Nat) (tail : List PgMsg),
    (∀ m ∈ seg, isReadyCont m = true) →
    readReadyForQueryLoop res err (seg ++ tail) =
      readReadyForQueryLoop (readyResFold res seg)
        (overwriteFold err (errsOf seg)) tail := by
  induction seg with
  | nil =>
    intro res err tail _
    simp [readyResFold, errsOf, overwriteFold_nil]
  | cons m seg ih =>
    intro res err tail h
    have hm : isReadyCont m = true := h m (List.mem_cons_self m seg)
    have hrest : ∀ x ∈ seg, isReadyCont x = true :=
      fun x hx => h x (List.mem_cons_of_mem m hx)
    cases m with
    | commandComplete b =>
      simp only [List.cons_append, readReadyForQueryLoop, List.append_eq]
      rw [ih _ _ _ hrest]
      simp [readyResFold, errsOf, List.filterMap_cons]
    | errorResponse e =>
      simp only [List.cons_append, readReadyForQueryLoop, List.append_eq]
      rw [ih _ _ _ hrest]
      have h2 : errsOf (PgMsg.errorResponse e :: seg) = e :: errsOf seg := by
        simp [errsOf, List.filterMap_cons]
      rw [h2, overwriteFold_cons]
      rfl
    | noticeResponse =>
      simp only [List.cons_append, readReadyForQueryLoop, List.append_eq]
      rw [ih _ _ _ hrest]
      simp [readyResFold, errsOf, List.filterMap_cons]
    | parameterStatus =>
      simp only [List.cons_append, readReadyForQueryLoop, List.append_eq]
      rw [ih _ _ _ hrest]
      simp [readyResFold, errsOf, List.filterMap_cons]
    | readyForQuery => simp [isReadyCont] at hm
    | rowDescription cols => simp [isReadyCont] at hm
    | dataRow => simp [isReadyCont] at hm
    | bindComplete => simp [isReadyCont] at hm
    | parseComplete => simp [isReadyCont] at hm
    | parameterDescription => simp [isReadyCont] at hm
    | noData => simp [isReadyCont] at hm
    | copyData b => simp [isReadyCont] at hm
    | copyDone => simp [isReadyCont] at hm
    | unknown t => simp [isReadyCont] at hm

theorem readParseDescribeSyncLoop_serverErr (seg : List PgMsg) :
    ∀ (columns : List (List Nat)) (e : Nat) (rest : List PgMsg),
    (∀ m ∈ seg, isPrepareCont m = true) →
    readParseDescribeSyncLoop columns (seg ++ .errorResponse e :: rest) =
      .serverErr e rest := by
  induction seg with
  | nil => intro columns e rest _; rfl
  | cons m seg ih =>
    intro columns e rest h
    have hm : isPrepareCont m = true := h m (List.mem_cons_self m seg)
    have hrest : ∀ x ∈ seg, isPrepareCont x = true :=
      fun x hx => h x (List.mem_cons_of_mem m hx)
    cases m with
    | parseComplete => simpa [readParseDescribeSyncLoop] using ih _ e rest hrest
    | rowDescription cols => simpa [readParseDescribeSyncLoop] using ih _ e rest hrest
    | parameterDescription => simpa [readParseDescribeSyncLoop] using ih _ e rest hrest
    | noData => simpa [readParseDescribeSyncLoop] using ih _ e rest hrest
    | noticeResponse => simpa [readParseDescribeSyncLoop] using ih _ e rest hrest
    | parameterStatus => simpa [readParseDescribeSyncLoop] using ih _ e rest hrest
    | readyForQuery => simp [isPrepareCont] at hm
    | errorResponse x => simp [isPrepareCont] at hm
    | commandComplete b => simp [isPrepareCont] at hm
    | dataRow => simp [isPrepareCont] at hm
    | bindComplete => simp [isPrepareCont] at hm
    | copyData b => simp [isPrepareCont] at hm
    | copyDone => simp [isPrepareCont] at hm
    | unknown t => simp [isPrepareCont] at hm

theorem readCopyDataLoop_serverErr (seg : List PgMsg) :
    ∀ (res : Option QueryResult) (out : List Nat) (e : Nat) (rest : List PgMsg),
    (∀ m ∈ seg, isCopyCont m = true) →
    readCopyDataLoop res out (seg ++ .errorResponse e :: rest) =
      .serverErr e (out ++ copyOutOf seg) rest := by
  induction seg with
  | nil =>
    intro res out e rest _
    simp [readCopyDataLoop, copyOutOf]
  | cons m seg ih =>
    intro res out e rest h
    have hm : isCopyCont m = true := h m (List.mem_cons_self m seg)
    have hrest : ∀ x ∈ seg, isCopyCont x = true :=
      fun x hx => h x (List.mem_cons_of_mem m hx)
    cases m with
    | copyData b =>
      simp only [List.cons_append, readCopyDataLoop, List.append_eq]
      rw [ih _ _ e rest hrest]
      simp [copyOutOf, List.filterMap_cons]
    | copyDone =>
      simp only [List.cons_append, readCopyDataLoop, List.append_eq]
      rw [ih _ _ e rest hrest]
      simp [copyOutOf, List.filterMap_cons]
    | commandComplete b =>
      simp only [List.cons_append, readCopyDataLoop, List.append_eq]
      rw [ih _ _ e rest hrest]
      simp [copyOutOf, List.filterMap_cons]
    | noticeResponse =>
      simp only [List.cons_append, readCopyDataLoop, List.append_eq]
      rw [ih _ _ e rest hrest]
      simp [copyOutOf, List.filterMap_cons]
    | parameterStatus =>
      simp only [List.cons_append, readCopyDataLoop, List.append_eq]
      rw [ih _ _ e rest hrest]
      simp [copyOutOf, List.filterMap_cons]
    | readyForQuery => simp [isCopyCont] at hm
    | errorResponse x => simp [isCopyCont] at hm
    | rowDescription cols => simp [isCopyCont] at hm
    | dataRow => simp [isCopyCont] at hm
    | bindComplete => simp [isCopyCont] at hm
    | parseComplete => simp [isCopyCont] at hm
    | parameterDescription => simp [isCopyCont] at hm
    | noData => simp [isCopyCont] at hm
    | unknown t => simp [isCopyCont] at hm

theorem qresFold_of_noCC (seg : List PgMsg) :
    ∀ (res : Option QueryResult) (rows : Nat),
    (∀ m ∈ seg, isCC m = false) →
    qresFold res rows seg = res := by
  induction seg with
  | nil => intro res rows _; rfl
  | cons m seg ih =>
    intro res rows h
    have hm : isCC m = false := h m (List.mem_cons_self m seg)
    have hrest : ∀ x ∈ seg, isCC x = false :=
      fun x hx => h x (List.mem_cons_of_mem m hx)
    cases m with
    | commandComplete b => simp [isCC] at hm
    | dataRow => simpa [qresFold] using ih _ _ hrest
    | readyForQuery => simpa [qresFold] using ih _ _ hrest
    | rowDescription cols => simpa [qresFold] using ih _ _ hrest
    | errorResponse e => simpa [qresFold] using ih _ _ hrest
    | noticeResponse => simpa [qresFold] using ih _ _ hrest
    | parameterStatus => simpa [qresFold] using ih _ _ hrest
    | bindComplete => simpa [qresFold] using ih _ _ hrest
    | parseComplete => simpa [qresFold] using ih _ _ hrest
    | parameterDescription => simpa [qresFold] using ih _ _ hrest
    | noData => simpa [qresFold] using ih _ _ hrest
    | copyData b => simpa [qresFold] using ih _ _ hrest
    | copyDone => simpa [qresFold] using ih _ _ hrest
    | unknown t => simpa [qresFold] using ih _ _ hrest

/-! ### Byte-codec lemmas -/

theorem orFirst_none_right (a : Option Nat) : orFirst a none = a := by
  cases a <;> rfl

theorem readN_append (xs rest : List Nat) :
    readN xs.length (xs ++ rest) = some (xs, rest) := by
  simp [readN, List.take_left, List.drop_left]

theorem readCString_append (name : List Nat) (rest : List Nat) :
    (∀ b ∈ name, b ≠ 0) →
    readCString (name ++ 0 :: rest) = some (name, rest) := by
  induction name with
  | nil => intro _; simp [readCString]
  | cons b bs ih =>
    intro h
    have hb : b ≠ 0 := h b (List.mem_cons_self b bs)
    have hbs : ∀ x ∈ bs, x ≠ 0 := fun x hx => h x (List.mem_cons_of_mem b hx)
    simp [readCString, hb, ih hbs]

theorem readInt16_int16be (n : Nat) (h : n < 32768) (rest : List Nat) :
    readInt16 (int16be n ++ rest) = some ((n : Int), rest) := by
  have hre : readN 2 (int16be n ++ rest) = some (int16be n, rest) := by
    have hl : (int16be n).length = 2 := rfl
    rw [← hl, readN_append]
  rw [readInt16, hre]
  have hmod : n % 65536 = n := Nat.mod_eq_of_lt (by omega)
  simp only [int16be, be16, hmod]
  have h2 : n / 256 * 256 + n % 256 = n := by omega
  rw [h2, if_pos h]

theorem readInt32_int32be_nat (n : Nat) (h : n < 2147483648) (rest : List Nat) :
    readInt32 (int32be (n : Int) ++ rest) = some ((n : Int), rest) := by
  have hm : (((n : Int) % 4294967296)).toNat = n := by omega
  have hre : readN 4 (int32be (n : Int) ++ rest) = some (int32be (n : Int), rest) := by
    have hl : (int32be (n : Int)).length = 4 := rfl
    rw [← hl, readN_append]
  rw [readInt32, hre]
  simp only [int32be, hm, Option.some.injEq, Prod.mk.injEq, and_true]
  split <;> omega

theorem readInt32_int32be_neg1 (rest : List Nat) :
    readInt32 (int32be (-1) ++ rest) = some (-1, rest) := by
  have he : int32be (-1) = [255, 255, 255, 255] := rfl
  have hre : readN 4 ([255, 255, 255, 255] ++ rest) =
      some ([255, 255, 255, 255], rest) := by
    have hl : ([255, 255, 255, 255] : List Nat).length = 4 := rfl
    rw [← hl, readN_append]
  rw [he, readInt32, hre]
  norm_num

/-! ### Structure lemmas for the byte-level row parsers -/

theorem readRowDescriptionFields_encode (fields : List (List Nat × List Nat)) :
    ∀ rest : List Nat, (∀ f ∈ fields, (∀ b ∈ f.1, b ≠ 0) ∧ f.2.length = 18) →
    readRowDescriptionFields fields.length
        ((fields.map fun f => writeCString f.1 ++ f.2).flatten ++ rest) =
      some (fields.map Prod.fst, rest) := by
  induction fields with
  | nil => intro rest _; rfl
  | cons f fs ih =>
    intro rest h
    obtain ⟨hname, hmeta⟩ := h f (List.mem_cons_self f fs)
    have hfs : ∀ x ∈ fs, (∀ b ∈ x.1, b ≠ 0) ∧ x.2.length = 18 :=
      fun x hx => h x (List.mem_cons_of_mem f hx)
    have hgoal : (((f :: fs).map fun g => writeCString g.1 ++ g.2).flatten : List Nat) ++ rest =
        f.1 ++ 0 :: (f.2 ++ ((fs.map fun g => writeCString g.1 ++ g.2).flatten ++ rest)) := by
      simp [writeCString]
    have hcs := readCString_append f.1
      (f.2 ++ ((fs.map fun g => writeCString g.1 ++ g.2).flatten ++ rest)) hname
    have hrn : readN 18 (f.2 ++ ((fs.map fun g => writeCString g.1 ++ g.2).flatten ++ rest)) =
        some (f.2, (fs.map fun g => writeCString g.1 ++ g.2).flatten ++ rest) := by
      rw [← hmeta, readN_append]
    rw [hgoal, List.length_cons]
    simp only [readRowDescriptionFields, hcs, hrn, ih rest hfs, List.map_cons]

theorem readDataRowLoop_succ_null (scan : Nat → List Nat → Option (List Nat) → Option Nat)
    (columns : List (List Nat)) (k i : Nat) (err : Option Nat) (s : List Nat) :
    readDataRowLoop scan columns (k + 1) i err (int32be (-1) ++ s) =
      match columns[i]? with
      | none => .panicked
      | some colName =>
        readDataRowLoop scan columns k (i + 1)
          (match scan i colName none with
           | none => err
           | some e => setErr err e) s := by
  simp only [readDataRowLoop]
  rw [readInt32_int32be_neg1]
  norm_num

theorem readDataRowLoop_succ_some (scan : Nat → List Nat → Option (List Nat) → Option Nat)
    (columns : List (List Nat)) (k i : Nat) (err : Option Nat) (x : List Nat)
    (s : List Nat) (hx : x.length < 2147483648) :
    readDataRowLoop scan columns (k + 1) i err (int32be (x.length : Int) ++ (x ++ s)) =
      match columns[i]? with
      | none => .panicked
      | some colName =>
        readDataRowLoop scan columns k (i + 1)
          (match scan i colName (some x) with
           | none => err
           | some e => setErr err e) s := by
  simp only [readDataRowLoop]
  rw [readInt32_int32be_nat x.length hx]
  have hne : ¬((x.length : Int) = -1) := by omega
  simp only [if_neg hne, Int.toNat_natCast]
  rw [readN_append]

theorem readDataRowLoop_encode (scan : Nat → List Nat → Option (List Nat) → Option Nat)
    (columns : List (List Nat)) (fields : List (Option (List Nat))) :
    ∀ (k i : Nat) (err : Option Nat) (s : List Nat),
    i + fields.length ≤ columns.length →
    (∀ b ∈ fields, ∀ x : List Nat, b = some x → x.length < 2147483648) →
    readDataRowLoop scan columns (fields.length + k) i err
        ((fields.map encodeDataRowField).flatten ++ s) =
      readDataRowLoop scan columns k (i + fields.length)
        (orFirst err ((List.enumFrom i fields).findSome? fun p =>
          scan p.1 (columns.getD p.1 []) p.2)) s := by
  induction fields with
  | nil =>
    intro k i err s _ _
    simp [orFirst_none_right]
  | cons b fs ih =>
    intro k i err s hlen hb
    have hi : i < columns.length := by
      simp only [List.length_cons] at hlen
      omega
    have hcol : columns[i]? = some (columns.getD i []) := by
      rw [List.getElem?_eq_getElem hi, List.getD_eq_getElem _ _ hi]
    have hfs : ∀ y ∈ fs, ∀ x : List Nat, y = some x → x.length < 2147483648 :=
      fun y hy => hb y (List.mem_cons_of_mem b hy)
    have hcount : (b :: fs).length + k = (fs.length + k) + 1 := by
      simp only [List.length_cons]
      omega
    have herr :
        orFirst (match scan i (columns.getD i []) b with
                 | none => err
                 | some e => setErr err e)
          ((List.enumFrom (i + 1) fs).findSome? fun p =>
            scan p.1 (columns.getD p.1 []) p.2) =
        orFirst err ((List.enumFrom i (b :: fs)).findSome? fun p =>
          scan p.1 (columns.getD p.1 []) p.2) := by
      rw [List.enumFrom_cons, List.findSome?_cons]
      cases hscan : scan i (columns.getD i []) b <;> cases err <;>
        simp [orFirst, setErr, hscan]
    have hidx : i + 1 + fs.length = i + (b :: fs).length := by
      simp only [List.length_cons]
      omega
    have hlen2 : i + 1 + fs.length ≤ columns.length := by
      simp only [List.length_cons] at hlen
      omega
    have hstream : (((b :: fs).map encodeDataRowField).flatten : List Nat) ++ s =
        encodeDataRowField b ++ ((fs.map encodeDataRowField).flatten ++ s) := by
      simp [List.append_assoc]
    have hcount : (b :: fs).length + k = fs.length + k + 1 := by
      simp only [List.length_cons]
      omega
    rw [hstream, hcount]
    cases b with
    | none =>
      have hstep := readDataRowLoop_succ_null scan columns (fs.length + k) i err
        ((fs.map encodeDataRowField).flatten ++ s)
      rw [show encodeDataRowField none = int32be (-1) from rfl, hstep, hcol]
      simp only []
      rw [ih k (i + 1) _ _ hlen2 hfs, hidx, herr]
    | some x =>
      have hx : x.length < 2147483648 :=
        hb (some x) (List.mem_cons_self _ fs) x rfl
      have hstep := readDataRowLoop_succ_some scan columns (fs.length + k) i err x
        ((fs.map encodeDataRowField).flatten ++ s) hx
      rw [show encodeDataRowField (some x) ++ ((fs.map encodeDataRowField).flatten ++ s) =
            int32be (x.length : Int) ++ (x ++ ((fs.map encodeDataRowField).flatten ++ s))
          from by simp [encodeDataRowField, List.append_assoc], hstep, hcol]
      simp only []
      rw [ih k (i + 1) _ _ hlen2 hfs, hidx, herr]

/-! ### Lemmas about the Bind parameter-count bytes -/

theorem int32be_length (v : Int) : (int32be v).length = 4 := rfl

theorem writeInt16_length (v : Int) : (writeInt16 v).length = 2 := rfl

theorem be16_writeInt16_int16ofNat (n : Nat) :
    be16 (writeInt16 (int16ofNat n)) = n % 65536 := by
  show (int16ofNat n % 65536).toNat / 256 * 256 + (int16ofNat n % 65536).toNat % 256 =
    n % 65536
  unfold int16ofNat
  split <;> omega

theorem bindParamCountBytes_eq (name : List Nat) (params : List (Option (List Nat))) :
    bindParamCountBytes name params = writeInt16 (int16ofNat params.length) := by
  have hassoc : writeBindExecuteMsg name params =
      ([66] ++ int32be ((bindPayload name params).length + 4) ++ writeCString [] ++
        writeCString name ++ writeInt16 0) ++
      (writeInt16 (int16ofNat params.length) ++
        ((params.map encodeParam).flatten ++ (writeInt16 0 ++
          (frameMsg (some 69) (writeCString [] ++ int32be 0) ++ frameMsg (some 83) [])))) := by
    simp [writeBindExecuteMsg, frameMsg, bindPayload, List.append_assoc]
  have hlen : ([66] ++ int32be ((bindPayload name params).length + 4) ++ writeCString [] ++
      writeCString name ++ writeInt16 0).length = 9 + name.length := by
    simp [int32be_length, writeInt16_length, writeCString, List.length_append]
    omega
  rw [bindParamCountBytes, hassoc, ← hlen, List.drop_left]
  rw [List.take_left' (writeInt16_length _)]

/-! ### Lemmas about SASL mechanism selection -/

theorem selectSaslMechLoop_allKnown (names : List String) :
    ∀ acc : Option String,
    (∀ s ∈ names, s = "SCRAM-SHA-256" ∨ s = "SCRAM-SHA-256-PLUS") →
    selectSaslMechLoop acc names =
      .ok (if "SCRAM-SHA-256" ∈ names then some "SCRAM-SHA-256" else acc) := by
  induction names with
  | nil => intro acc _; simp [selectSaslMechLoop]
  | cons s ns ih =>
    intro acc h
    have hs := h s (List.mem_cons_self s ns)
    have hns : ∀ x ∈ ns, x = "SCRAM-SHA-256" ∨ x = "SCRAM-SHA-256-PLUS" :=
      fun x hx => h x (List.mem_cons_of_mem s hx)
    rcases hs with rfl | rfl
    · rw [selectSaslMechLoop, if_neg (by decide), if_pos rfl,
        ih (some "SCRAM-SHA-256") hns]
      simp [List.mem_cons]
    · rw [selectSaslMechLoop, if_neg (by decide), if_neg (by decide), if_pos rfl,
        ih acc hns]
      have hne : ("SCRAM-SHA-256" : String) ≠ "SCRAM-SHA-256-PLUS" := by decide
      simp [List.mem_cons, hne]

theorem selectSaslMechLoop_badName (good : List String) :
    ∀ (acc : Option String) (bad : String) (rest : List String),
    (∀ s ∈ good, s = "SCRAM-SHA-256" ∨ s = "SCRAM-SHA-256-PLUS") →
    bad ≠ "" → bad ≠ "SCRAM-SHA-256" → bad ≠ "SCRAM-SHA-256-PLUS" →
    selectSaslMechLoop acc (good ++ bad :: rest) = .error bad := by
  induction good with
  | nil =>
    intro acc bad rest _ h1 h2 h3
    simp only [List.nil_append]
    rw [selectSaslMechLoop, if_neg h1, if_neg h2, if_neg h3]
  | cons s gs ih =>
    intro acc bad rest h h1 h2 h3
    have hs := h s (List.mem_cons_self s gs)
    have hgs : ∀ x ∈ gs, x = "SCRAM-SHA-256" ∨ x = "SCRAM-SHA-256-PLUS" :=
      fun x hx => h x (List.mem_cons_of_mem s hx)
    rcases hs with rfl | rfl
    · rw [List.cons_append, selectSaslMechLoop, if_neg (by decide), if_pos rfl,
        ih _ bad rest hgs h1 h2 h3]
    · rw [List.cons_append, selectSaslMechLoop, if_neg (by decide),
        if_neg (by decide), if_pos rfl, ih _ bad rest hgs h1 h2 h3]

/-! ### Claim theorems -/

set_option maxRecDepth 100000 in
/-- C3: in MD5 authentication (sub-code 5), for every user, password and
salt the PasswordMessage payload is exactly the NUL-terminated ASCII string
"md5" + hex_md5(hex_md5(password + user) + salt); for user "u", password
"p" and salt bytes 0x12 0x34 0x56 0x78 the payload is the ASCII bytes of
"md5653172af189cff52cc70c3f400610a7d" followed by a NUL byte. -/
theorem claim3_md5_password_payload :
    (∀ user password salt : List Nat,
      md5PasswordPayload user password salt =
        ascii "md5" ++ md5s (md5s (password ++ user) ++ salt) ++ [0]) ∧
    md5PasswordPayload (ascii "u") (ascii "p") [18, 52, 86, 120] =
      [109, 100, 53, 54, 53, 51, 49, 55, 50, 97, 102, 49, 56, 57, 99, 102,
       102, 53, 50, 99, 99, 55, 48, 99, 51, 102, 52, 48, 48, 54, 49, 48, 97,
       55, 100, 0] := by
  constructor
  · intro user password salt
    simp [md5PasswordPayload, writeCString, md5AuthSecret, List.append_assoc]
  · decide

/-- C8: enableSSL writes the 8-byte SSLRequest with opcode 80877103, then
reads exactly one byte: 'S' (83) yields success, any other byte yields the
SslNotSupported error, and in both cases exactly that one byte is consumed
from the stream. -/
theorem claim8_enable_ssl :
    writeSSLMsgBytes = [0, 0, 0, 8, 4, 210, 22, 47] ∧
    (∀ (c : Nat) (rest : List Nat), enableSSL (c :: rest) =
      (writeSSLMsgBytes,
       (if c = 83 then SslOutcome.sslOk else SslOutcome.sslNotSupported), rest)) := by
  refine ⟨by decide, ?_⟩
  intro c rest
  by_cases hc : c = 83 <;> simp [enableSSL, hc]

/-- C10: writeBindExecuteMsg writes the Bind parameter count as
int16(len(params)): the two count bytes always decode (big-endian) to the
length reduced modulo 2^16, with no error; for lengths up to 32767 that is
the length itself. -/
theorem claim10_bind_param_count (name : List Nat) (params : List (Option (List Nat))) :
    be16 (bindParamCountBytes name params) = params.length % 65536 ∧
    (params.length ≤ 32767 → be16 (bindParamCountBytes name params) = params.length) := by
  have h := bindParamCountBytes_eq name params
  constructor
  · rw [h, be16_writeInt16_int16ofNat]
  · intro hle
    rw [h, be16_writeInt16_int16ofNat]
    omega

/-- Witness for C10 at a concrete two-parameter list. -/
theorem claim10_witness :
    be16 (bindParamCountBytes [] [none, some [49]]) = 2 :=
  (claim10_bind_param_count [] [none, some [49]]).2 (by norm_num)

/-- C4 counterexample: the SASL loop fails on the first unrecognised
mechanism name even though SCRAM-SHA-256 is offered later in the list, so
"fails if and only if SCRAM-SHA-256 is not offered" is false. -/
theorem claim4_counterexample :
    selectSaslMech ["OTHER", "SCRAM-SHA-256"] = .error "OTHER" ∧
    "SCRAM-SHA-256" ∈ ["OTHER", "SCRAM-SHA-256"] := by
  constructor
  · rfl
  · simp

/-- C4 amended: the engine scans the offered names in order; it selects
SCRAM-SHA-256 whenever only the two SCRAM names occur, ignores
SCRAM-SHA-256-PLUS, and fails with the unsupported-mechanism error exactly
at the first name that is neither of the two (and not the empty
terminator); when only SCRAM-SHA-256-PLUS is offered it does not fail but
proceeds with no mechanism selected. -/
theorem claim4_sasl_selection :
    (∀ names : List String,
      (∀ s ∈ names, s = "SCRAM-SHA-256" ∨ s = "SCRAM-SHA-256-PLUS") →
      selectSaslMech names =
        .ok (if "SCRAM-SHA-256" ∈ names then some "SCRAM-SHA-256" else none)) ∧
    (∀ (good : List String) (bad : String) (rest : List String),
      (∀ s ∈ good, s = "SCRAM-SHA-256" ∨ s = "SCRAM-SHA-256-PLUS") →
      bad ≠ "" → bad ≠ "SCRAM-SHA-256" → bad ≠ "SCRAM-SHA-256-PLUS" →
      selectSaslMech (good ++ bad :: rest) = .error bad) := by
  constructor
  · intro names h
    exact selectSaslMechLoop_allKnown names none h
  · intro good bad rest h h1 h2 h3
    exact selectSaslMechLoop_badName good none bad rest h h1 h2 h3

/-- Witness for C4: a list offering both SCRAM names selects SCRAM-SHA-256,
and a PLUS-only list selects nothing; an unknown name after a PLUS fails. -/
theorem claim4_witness :
    selectSaslMech ["SCRAM-SHA-256-PLUS", "SCRAM-SHA-256"] =
      .ok (if "SCRAM-SHA-256" ∈ ["SCRAM-SHA-256-PLUS", "SCRAM-SHA-256"]
           then some "SCRAM-SHA-256" else none) ∧
    selectSaslMech (["SCRAM-SHA-256-PLUS"] ++ "BAD" :: []) = .error "BAD" := by
  constructor
  · exact claim4_sasl_selection.1 _ (by decide)
  · exact claim4_sasl_selection.2 ["SCRAM-SHA-256-PLUS"] "BAD" [] (by decide)
      (by decide) (by decide) (by decide)

/-- C6: readRowDescription returns one entry per field of the i16 field
count, entry i holding exactly the bytes of the i-th column name, with the
18 metadata bytes of each field consumed and discarded; a zero field count
yields the empty list (the case fields = []). -/
theorem claim6_row_description (fields : List (List Nat × List Nat)) (rest : List Nat)
    (hcount : fields.length < 32768)
    (hf : ∀ f ∈ fields, (∀ b ∈ f.1, b ≠ 0) ∧ f.2.length = 18) :
    readRowDescription (encodeRowDescription fields ++ rest) =
      some (fields.map Prod.fst, rest) ∧
    (fields.map Prod.fst).length = fields.length := by
  constructor
  · have h16 := readInt16_int16be fields.length hcount
      ((fields.map fun f => writeCString f.1 ++ f.2).flatten ++ rest)
    simp only [encodeRowDescription, List.append_assoc, readRowDescription, h16,
      Int.toNat_natCast]
    exact readRowDescriptionFields_encode fields rest hf
  · simp

/-- Witness for C6: two columns named "A" and "BC" with 18-byte metadata,
and the zero-column case. -/
theorem claim6_witness :
    readRowDescription (encodeRowDescription
        [([65], List.replicate 18 0), ([66, 67], List.replicate 18 1)] ++ [7]) =
      some ([([65], List.replicate 18 0), ([66, 67], List.replicate 18 1)].map Prod.fst,
        [7]) ∧
    readRowDescription (encodeRowDescription [] ++ [9]) =
      some (([] : List (List Nat × List Nat)).map Prod.fst, [9]) := by
  constructor
  · exact (claim6_row_description
      [([65], List.replicate 18 0), ([66, 67], List.replicate 18 1)] [7]
      (by norm_num) (by decide)).1
  · exact (claim6_row_description [] [9] (by norm_num) (by decide)).1

/-- C5: readDataRow reads the i16 field count, then per field an i32 length
and exactly that many payload bytes (−1 meaning NULL, zero payload bytes,
nil slice to the scanner); scan errors are coalesced: every remaining field
is still consumed (the whole encoding is consumed, leaving exactly `rest`)
and the first scan error is returned. -/
theorem claim5_data_row (scan : Nat → List Nat → Option (List Nat) → Option Nat)
    (columns : List (List Nat)) (fields : List (Option (List Nat))) (rest : List Nat)
    (hlen : fields.length ≤ columns.length)
    (hcount : fields.length < 32768)
    (hb : ∀ b ∈ fields, (b.getD []).length < 2147483648) :
    readDataRow scan columns (encodeDataRow fields ++ rest) =
      .done (firstScanError scan columns fields) rest := by
  have hb2 : ∀ b ∈ fields, ∀ x : List Nat, b = some x → x.length < 2147483648 := by
    intro b hm x hx
    have := hb b hm
    rw [hx] at this
    simpa using this
  have h16 := readInt16_int16be fields.length hcount
    ((fields.map encodeDataRowField).flatten ++ rest)
  simp only [encodeDataRow, List.append_assoc, readDataRow, h16, Int.toNat_natCast]
  have h := readDataRowLoop_encode scan columns fields 0 0 none rest (by omega) hb2
  simp only [Nat.add_zero, Nat.zero_add, readDataRowLoop] at h
  rw [h]
  rfl

/-- Witness for C5: a three-column row with a NULL middle field where
columns 0 and 1 both fail to scan; the row is fully consumed and the first
error wins. -/
theorem claim5_witness :
    readDataRow
        (fun i _ b => if i = 0 then some 10 else if b = none then some 20 else none)
        [[97], [98], [99]]
        (encodeDataRow [some [1], none, some [2, 3]] ++ [5]) =
      .done (firstScanError
        (fun i _ b => if i = 0 then some 10 else if b = none then some 20 else none)
        [[97], [98], [99]] [some [1], none, some [2, 3]]) [5] :=
  claim5_data_row _ [[97], [98], [99]] [some [1], none, some [2, 3]] [5]
    (by norm_num) (by norm_num) (by decide)

/-- C9: readDataRow indexes the cached column-name list with no bounds
check: with the field count at most the number of column names the panic
branch is never taken, and every well-formed DataRow carrying more fields
than there are column names reaches the out-of-bounds (panic) branch. -/
theorem claim9_column_bounds (scan : Nat → List Nat → Option (List Nat) → Option Nat)
    (columns : List (List Nat)) (fields : List (Option (List Nat))) (rest : List Nat)
    (hcount : fields.length < 32768)
    (hb : ∀ b ∈ fields, (b.getD []).length < 2147483648) :
    (fields.length ≤ columns.length →
      readDataRow scan columns (encodeDataRow fields ++ rest) ≠ .panicked) ∧
    (columns.length < fields.length →
      readDataRow scan columns (encodeDataRow fields ++ rest) = .panicked) := by
  have hb2 : ∀ b ∈ fields, ∀ x : List Nat, b = some x → x.length < 2147483648 := by
    intro b hm x hx
    have := hb b hm
    rw [hx] at this
    simpa using this
  have h16 := readInt16_int16be fields.length hcount
    ((fields.map encodeDataRowField).flatten ++ rest)
  constructor
  · intro hle
    simp only [encodeDataRow, List.append_assoc, readDataRow, h16, Int.toNat_natCast]
    have h := readDataRowLoop_encode scan columns fields 0 0 none rest (by omega) hb2
    simp only [Nat.add_zero, Nat.zero_add, readDataRowLoop] at h
    rw [h]
    simp
  · intro hgt
    simp only [encodeDataRow, List.append_assoc, readDataRow, h16, Int.toNat_natCast]
    cases hdrop : fields.drop columns.length with
    | nil =>
      exfalso
      have hdl : (fields.drop columns.length).length = fields.length - columns.length := by
        simp [List.length_drop]
      rw [hdrop] at hdl
      simp at hdl
      omega
    | cons b ds =>
      have hsplit : fields = fields.take columns.length ++ b :: ds := by
        conv_lhs => rw [← List.take_append_drop columns.length fields]
        rw [hdrop]
      have htlen : (fields.take columns.length).length = columns.length := by
        simp [List.length_take]
        omega
      have hflat : ((fields.map encodeDataRowField).flatten : List Nat) ++ rest =
          ((fields.take columns.length).map encodeDataRowField).flatten ++
            (encodeDataRowField b ++ ((ds.map encodeDataRowField).flatten ++ rest)) := by
        conv_lhs => rw [hsplit]
        simp [List.append_assoc]
      have hcnt : fields.length = (fields.take columns.length).length + (ds.length + 1) := by
        conv_lhs => rw [hsplit]
        simp
      rw [hflat, hcnt]
      have hbt : ∀ y ∈ fields.take columns.length, ∀ x : List Nat,
          y = some x → x.length < 2147483648 :=
        fun y hy => hb2 y (List.take_subset _ _ hy)
      have hloop := readDataRowLoop_encode scan columns (fields.take columns.length)
        (ds.length + 1) 0 none
        (encodeDataRowField b ++ ((ds.map encodeDataRowField).flatten ++ rest))
        (by omega) hbt
      rw [hloop]
      simp only [Nat.zero_add, htlen]
      have hnone : columns[columns.length]? = none :=
        List.getElem?_eq_none (Nat.le_refl _)
      cases b with
      | none =>
        rw [show encodeDataRowField none = int32be (-1) from rfl,
          readDataRowLoop_succ_null, hnone]
      | some x =>
        have hx : x.length < 2147483648 := by
          have hm : some x ∈ fields := by
            rw [hsplit]
            exact List.mem_append_right _ (List.mem_cons_self _ _)
          have := hb _ hm
          simpa using this
        rw [show encodeDataRowField (some x) ++ ((ds.map encodeDataRowField).flatten ++ rest) =
              int32be (x.length : Int) ++ (x ++ ((ds.map encodeDataRowField).flatten ++ rest))
            from by simp [encodeDataRowField, List.append_assoc]]
        rw [readDataRowLoop_succ_some scan columns ds.length columns.length _ x _ hx, hnone]

/-- Witness for C9: with two cached columns, a two-field row does not
panic and a three-field row does. -/
theorem claim9_witness :
    readDataRow (fun _ _ _ => none) [[97], [98]]
        (encodeDataRow [some [1], none] ++ [5]) ≠ .panicked ∧
    readDataRow (fun _ _ _ => none) [[97], [98]]
        (encodeDataRow [some [1], none, some [2]] ++ [5]) = .panicked := by
  constructor
  · exact (claim9_column_bounds _ [[97], [98]] [some [1], none] [5]
      (by norm_num) (by decide)).1 (by norm_num)
  · exact (claim9_column_bounds _ [[97], [98]] [some [1], none, some [2]] [5]
      (by norm_num) (by decide)).2 (by norm_num)

/-- C1 counterexample: with two ErrorResponses before ReadyForQuery,
readReadyForQuery drains to ReadyForQuery but returns the SECOND error
(the unguarded `retErr = e` overwrites), not the first as claimed. -/
theorem claim1_counterexample :
    readReadyForQuery [.errorResponse 1, .errorResponse 2, .readyForQuery] =
      .done none (some 2) [] ∧ (2 : Nat) ≠ 1 := by decide

/-- C1 amended: readSimpleQuery and readExtQuery drain every message up to
and including ReadyForQuery and return the FIRST error; readReadyForQuery
also drains to ReadyForQuery but returns the LAST error of the cycle. -/
theorem claim1_error_coalescing :
    (∀ (pre : List PgMsg) (e1 e2 : Nat) (es : List Nat) (rest : List PgMsg),
      (∀ m ∈ pre, isSimpleCont m = true) → errsOf pre = e1 :: e2 :: es →
      readSimpleQuery (pre ++ .readyForQuery :: rest) =
        .done (qresFold none 0 pre) (some e1) rest) ∧
    (∀ (pre : List PgMsg) (e1 e2 : Nat) (es : List Nat) (rest : List PgMsg),
      (∀ m ∈ pre, isExtCont m = true) → errsOf pre = e1 :: e2 :: es →
      readExtQuery (pre ++ .readyForQuery :: rest) =
        .done (qresFold none 0 pre) (some e1) rest) ∧
    (∀ (pre : List PgMsg) (e1 : Nat) (es : List Nat) (eLast : Nat) (rest : List PgMsg),
      (∀ m ∈ pre, isReadyCont m = true) → errsOf pre = e1 :: (es ++ [eLast]) →
      readReadyForQuery (pre ++ .readyForQuery :: rest) =
        .done (readyResFold none pre) (some eLast) rest) := by
  refine ⟨?_, ?_, ?_⟩
  · intro pre e1 e2 es rest h he
    rw [readSimpleQuery, readSimpleQueryLoop_append pre none 0 none _ h, he]
    rfl
  · intro pre e1 e2 es rest h he
    rw [readExtQuery, readExtQueryLoop_append pre none 0 none _ h, he]
    rfl
  · intro pre e1 es eLast rest h he
    rw [readReadyForQuery, readReadyForQueryLoop_append pre none none _ h, he,
      overwriteFold_cons, overwriteFold_concat]
    rfl

/-- Witness for C1 at streams carrying two errors before ReadyForQuery. -/
theorem claim1_witness :
    readSimpleQuery ([.errorResponse 5, .dataRow, .errorResponse 6] ++
        .readyForQuery :: []) =
      .done (qresFold none 0 [.errorResponse 5, .dataRow, .errorResponse 6])
        (some 5) [] ∧
    readExtQuery ([.errorResponse 5, .bindComplete, .errorResponse 6] ++
        .readyForQuery :: []) =
      .done (qresFold none 0 [.errorResponse 5, .bindComplete, .errorResponse 6])
        (some 5) [] ∧
    readReadyForQuery ([.errorResponse 5, .errorResponse 6] ++ .readyForQuery :: []) =
      .done (readyResFold none [.errorResponse 5, .errorResponse 6]) (some 6) [] := by
  refine ⟨?_, ?_, ?_⟩
  · exact claim1_error_coalescing.1 [.errorResponse 5, .dataRow, .errorResponse 6]
      5 6 [] [] (by decide) (by decide)
  · exact claim1_error_coalescing.2.1 [.errorResponse 5, .bindComplete, .errorResponse 6]
      5 6 [] [] (by decide) (by decide)
  · exact claim1_error_coalescing.2.2 [.errorResponse 5, .errorResponse 6]
      5 [] 6 [] (by decide) (by decide)

/-- C2 counterexample: on a server error both readParseDescribeSync and
readCopyData return at once, leaving the following ReadyForQuery message
unconsumed, so the last message consumed is the ErrorResponse, not
ReadyForQuery. -/
theorem claim2_counterexample :
    readParseDescribeSync [.errorResponse 7, .readyForQuery] =
      .serverErr 7 [.readyForQuery] ∧
    readCopyData [.errorResponse 7, .readyForQuery] =
      .serverErr 7 [] [.readyForQuery] ∧
    ([PgMsg.readyForQuery] : List PgMsg) ≠ [] := by decide

/-- C2 amended: when readParseDescribeSync or readCopyData meets an
ErrorResponse it returns the server error immediately; everything after the
ErrorResponse (in particular the ReadyForQuery synchronization message) is
left unconsumed. -/
theorem claim2_server_error_no_drain :
    (∀ (pre : List PgMsg) (e : Nat) (rest : List PgMsg),
      (∀ m ∈ pre, isPrepareCont m = true) →
      readParseDescribeSync (pre ++ .errorResponse e :: rest) = .serverErr e rest) ∧
    (∀ (pre : List PgMsg) (e : Nat) (rest : List PgMsg),
      (∀ m ∈ pre, isCopyCont m = true) →
      readCopyData (pre ++ .errorResponse e :: rest) =
        .serverErr e (copyOutOf pre) rest) := by
  constructor
  · intro pre e rest h
    exact readParseDescribeSyncLoop_serverErr pre [] e rest h
  · intro pre e rest h
    have hc := readCopyDataLoop_serverErr pre none [] e rest h
    simpa [readCopyData] using hc

/-- Witness for C2: the error arrives after a ParseComplete (respectively a
CopyData frame) and the trailing ReadyForQuery is left unconsumed. -/
theorem claim2_witness :
    readParseDescribeSync ([.parseComplete] ++ .errorResponse 7 :: [.readyForQuery]) =
      .serverErr 7 [.readyForQuery] ∧
    readCopyData ([.copyData [1, 2]] ++ .errorResponse 7 :: [.readyForQuery]) =
      .serverErr 7 (copyOutOf [.copyData [1, 2]]) [.readyForQuery] :=
  ⟨claim2_server_error_no_drain.1 [.parseComplete] 7 [.readyForQuery] (by decide),
   claim2_server_error_no_drain.2 [.copyData [1, 2]] 7 [.readyForQuery] (by decide)⟩

/-- C7 counterexample: a DataRow consumed after the last CommandComplete is
not reflected in the returned row count: the reader consumes one DataRow but
reports 0 rows. -/
theorem claim7_counterexample :
    readSimpleQuery [.commandComplete [116], .dataRow, .readyForQuery] =
      .done (some ⟨[116], 0⟩) none [] ∧
    dataRowCount [.commandComplete [116], .dataRow] = 1 ∧ (0 : Nat) ≠ 1 := by decide

/-- C7 amended: for both query readers the returned Result carries the tag
of the last CommandComplete and a row count equal to the number of DataRow
messages consumed BEFORE that last CommandComplete; DataRows between the
last CommandComplete and ReadyForQuery are consumed but not counted. -/
theorem claim7_result_contents :
    (∀ (pre1 : List PgMsg) (b : List Nat) (pre2 rest : List PgMsg),
      (∀ m ∈ pre1, isSimpleCont m = true) →
      (∀ m ∈ pre2, isSimpleCont m = true) →
      (∀ m ∈ pre2, isCC m = false) →
      readSimpleQuery (pre1 ++ .commandComplete b :: (pre2 ++ .readyForQuery :: rest)) =
        .done (some ⟨b, dataRowCount pre1⟩)
          (errFold none (errsOf pre1 ++ errsOf pre2)) rest) ∧
    (∀ (pre1 : List PgMsg) (b : List Nat) (pre2 rest : List PgMsg),
      (∀ m ∈ pre1, isExtCont m = true) →
      (∀ m ∈ pre2, isExtCont m = true) →
      (∀ m ∈ pre2, isCC m = false) →
      readExtQuery (pre1 ++ .commandComplete b :: (pre2 ++ .readyForQuery :: rest)) =
        .done (some ⟨b, dataRowCount pre1⟩)
          (errFold none (errsOf pre1 ++ errsOf pre2)) rest) := by
  constructor
  · intro pre1 b pre2 rest h1 h2 hcc
    rw [readSimpleQuery, readSimpleQueryLoop_append pre1 none 0 none _ h1]
    simp only [readSimpleQueryLoop]
    rw [readSimpleQueryLoop_append pre2 _ _ _ _ h2,
      qresFold_of_noCC pre2 _ _ hcc, errFold_append]
    simp only [readSimpleQueryLoop, Nat.zero_add]
  · intro pre1 b pre2 rest h1 h2 hcc
    rw [readExtQuery, readExtQueryLoop_append pre1 none 0 none _ h1]
    simp only [readExtQueryLoop]
    rw [readExtQueryLoop_append pre2 _ _ _ _ h2,
      qresFold_of_noCC pre2 _ _ hcc, errFold_append]
    simp only [readExtQueryLoop, Nat.zero_add]

/-- Witness for C7: two DataRows before CommandComplete and one DataRow
after it; the reported count is 2 for both readers. -/
theorem claim7_witness :
    readSimpleQuery ([.dataRow, .dataRow] ++ .commandComplete [116] ::
        ([.dataRow] ++ .readyForQuery :: [])) =
      .done (some ⟨[116], dataRowCount [.dataRow, .dataRow]⟩)
        (errFold none (errsOf [.dataRow, .dataRow] ++ errsOf [.dataRow])) [] ∧
    readExtQuery ([.dataRow, .dataRow] ++ .commandComplete [116] ::
        ([.dataRow] ++ .readyForQuery :: [])) =
      .done (some ⟨[116], dataRowCount [.dataRow, .dataRow]⟩)
        (errFold none (errsOf [.dataRow, .dataRow] ++ errsOf [.dataRow])) [] :=
  ⟨claim7_result_contents.1 [.dataRow, .dataRow] [116] [.dataRow] []
      (by decide) (by decide) (by decide),
   claim7_result_contents.2 [.dataRow, .dataRow] [116] [.dataRow] []
      (by decide) (by decide) (by decide)⟩

end GoPg
